import Mathlib

/-
  Shallow embedding of `src/godot-macros/src/derive_godot_class.rs`:
  the `#[derive(GodotClass)]` compile-time pass of the gdext repository.

  The pass validates an annotated struct declaration, resolves its
  class-level `#[godot(...)]` configuration attribute, scans field-level
  `#[base]` / `#[export]` markers, and emits a metadata binding, an
  optional generated constructor, and a registry entry.

  Tokens, spans and function references are modelled abstractly:
  a span is a `Nat`, an attribute path is its list of segments,
  the already-parsed key/value body of an attribute is carried directly
  on the attribute (the attribute-body tokenizer `util::parse_kv_group`
  is an external collaborator, out of scope per the spec).
-/

set_option autoImplicit false

deriving instance DecidableEq for Except

namespace Gdext

/-- Value of one key in a parsed `#[godot(...)]` body.
    Modelled from the spec: `util::KvValue` (the repository file
    `godot-macros/src/util.rs` is not under `src/`); the spec describes the
    AttributeMap values as one of absent/flag, bare identifier, other
    literal. -/
inductive KvValue where
  /-- Flag form: the key appears with no value, e.g. `init`. -/
  | none
  /-- Bare identifier value, e.g. `base = Node2D`. -/
  | ident (s : String)
  /-- Any other literal or token-tree value. -/
  | lit (s : String)
deriving DecidableEq

/-- Ordered key-to-value mapping parsed from a `#[godot(...)]` body.
    Modelled from the spec: `util::KvMap`; each key appears at most once
    (invariant guaranteed upstream by the attribute-body parser). -/
abbrev KvMap := List (String × KvValue)

/-- One attribute attached to a struct or a field, e.g. `#[godot(init)]`
    or `#[base]`. `path` is the attribute path segments, `kvs` the parsed
    key/value body (relevant only for `#[godot]`), `span` its source span. -/
structure Attr where
  path : List String
  kvs : KvMap
  span : Nat
deriving DecidableEq

/-- A named struct field: name, type expression (kept abstract as a
    string), and its attribute list. Models `venial::NamedField`. -/
structure NamedField where
  name : String
  ty : String
  attributes : List Attr
deriving DecidableEq

/-- Shape of a struct field list. Models `venial::StructFields`. -/
inductive StructFields where
  /-- Unit struct: no field list at all. -/
  | unit
  /-- Tuple struct with positional, unnamed fields. -/
  | tuple (arity : Nat)
  /-- Struct with named fields, in declaration order. -/
  | named (fields : List NamedField)
deriving DecidableEq

/-- A struct declaration: name, struct-level attribute list, field list,
    and the span of the field list (used by the tuple-struct diagnostic,
    which points at `&class.fields`). Models `venial::Struct`. -/
structure Struct where
  name : String
  attributes : List Attr
  fields : StructFields
  fieldsSpan : Nat
deriving DecidableEq

/-- The input declaration: either a struct or anything else
    (enum, union, ...). Models the result of `venial::parse_declaration`
    combined with the `as_struct` classification in `transform`. -/
inductive Declaration where
  | structDecl (s : Struct)
  | otherDecl
deriving DecidableEq

/-- Diagnostic taxonomy of the pass (spec section 7). Each constructor
    corresponds to one `bail`/error site of the source:
    `unsupportedShape` = "Not a valid struct";
    `unsupportedFields` = "#[derive(GodotClass)] not supported for tuple structs";
    `duplicateConfigAttribute` = "Only one #[godot] attribute per item allowed";
    `invalidBaseValue` = "Invalid value for base argument";
    `initTakesNoValue` = "Argument init must not have a value";
    `unknownAttributeKey` = leftover keys after `ensure_kv_empty`;
    `multipleBaseFields` = "#[base] allowed for at most 1 field, already
    applied to <prevName>". Spans carry the `bail` location argument. -/
inductive Err where
  | unsupportedShape
  | unsupportedFields (span : Nat)
  | duplicateConfigAttribute (span : Nat)
  | invalidBaseValue (span : Nat)
  | initTakesNoValue (span : Nat)
  | unknownAttributeKey (keys : List String) (span : Nat)
  | multipleBaseFields (prevName : String) (span : Nat)
deriving DecidableEq

/-- Modelled from the spec: `util::path_is_single` — tests that an
    attribute path consists of exactly the one given segment. -/
def path_is_single (path : List String) (seg : String) : Bool :=
  path = [seg]

/-- Modelled from the spec: `venial::Attribute::get_single_path_segment` —
    returns the single path segment when the path has exactly one. -/
def get_single_path_segment (a : Attr) : Option String :=
  match a.path with
  | [p] => some p
  | _ => Option.none

/-- Modelled from the spec: removal of a key from a `KvMap`
    (`map.remove(key)`): returns the removed value, if present, and the
    remaining map. Keys are unique upstream, so removing the first
    occurrence is exact. -/
def kvRemove (key : String) : KvMap → Option KvValue × KvMap
  | [] => (Option.none, [])
  | (k, v) :: rest =>
    if k = key then (some v, rest)
    else
      let r := kvRemove key rest
      (r.1, (k, v) :: r.2)

/-- Modelled from the spec: `util::ensure_kv_empty` — after all recognized
    keys are removed, a non-empty residue fails the pass with
    `UnknownAttributeKey`, reporting every leftover key. -/
def ensure_kv_empty (m : KvMap) (span : Nat) : Except Err Unit :=
  match m with
  | [] => .ok ()
  | _ => .error (.unknownAttributeKey (m.map Prod.fst) span)

/-- Resolved class-level configuration (source struct `ClassAttributes`):
    the base type identifier and whether an `init` constructor is
    generated. -/
structure ClassAttributes where
  base_ty : String
  has_generated_init : Bool
deriving DecidableEq

/-- Loop body of `parse_godot_attr`: walks the struct attribute list,
    remembering the first `#[godot]` attribute (its span and parsed body)
    and failing on a second one with the duplicate diagnostic at the
    second occurrence. -/
def parseGodotAttrGo : List Attr → Option (Nat × KvMap) →
    Except Err (Option (Nat × KvMap))
  | [], found => .ok found
  | a :: rest, found =>
    if path_is_single a.path "godot" then
      match found with
      | some _ => .error (.duplicateConfigAttribute a.span)
      | Option.none => parseGodotAttrGo rest (some (a.span, a.kvs))
    else
      parseGodotAttrGo rest found

/-- Source `parse_godot_attr`: scans a struct attribute list for the
    `#[godot]` attribute; `none` when absent, its span and parsed body
    when present once, `DuplicateConfigAttribute` when present twice. -/
def parse_godot_attr (attributes : List Attr) :
    Except Err (Option (Nat × KvMap)) :=
  parseGodotAttrGo attributes Option.none

/-- Final step of `parse_struct_attributes`: `ensure_kv_empty` on the
    residual map, then the resolved configuration. -/
def psaFinish (span : Nat) (base : String) (hgi : Bool) (m : KvMap) :
    Except Err ClassAttributes :=
  match ensure_kv_empty m span with
  | .error e => .error e
  | .ok _ => .ok ⟨base, hgi⟩

/-- Tail of `parse_struct_attributes` after the `base` key is resolved:
    resolves the `init` key (flag form sets `has_generated_init`; any
    value is `InitTakesNoValue`) and then requires the residual map to be
    empty. -/
def psaInit (span : Nat) (base : String) (m : KvMap) :
    Except Err ClassAttributes :=
  match (kvRemove "init" m).1 with
  | some KvValue.none => psaFinish span base true (kvRemove "init" m).2
  | some (KvValue.ident _) => .error (.initTakesNoValue span)
  | some (KvValue.lit _) => .error (.initTakesNoValue span)
  | Option.none => psaFinish span base false (kvRemove "init" m).2

/-- Source `parse_struct_attributes`: starts from the defaults
    (`base = RefCounted`, no generated init), locates the `#[godot]`
    attribute, and resolves the `base` key (bare identifier overrides the
    default; anything else is `InvalidBaseValue`) followed by the `init`
    key and the leftover check. -/
def parse_struct_attributes (c : Struct) : Except Err ClassAttributes :=
  match parse_godot_attr c.attributes with
  | .error e => .error e
  | .ok Option.none => .ok ⟨"RefCounted", false⟩
  | .ok (some (span, map0)) =>
    match (kvRemove "base" map0).1 with
    | some (KvValue.ident override_base) =>
        psaInit span override_base (kvRemove "base" map0).2
    | some KvValue.none => .error (.invalidBaseValue span)
    | some (KvValue.lit _) => .error (.invalidBaseValue span)
    | Option.none => psaInit span "RefCounted" (kvRemove "base" map0).2

/-- Source struct `ExportedField`: the name and type of a field recorded
    for the base/export roles. -/
structure ExportedField where
  name : String
  ty : String
deriving DecidableEq

/-- Source `ExportedField::new`. -/
def ExportedField.new (f : NamedField) : ExportedField :=
  ⟨f.name, f.ty⟩

/-- Source struct `Fields`: the names of all non-base fields in
    declaration order, and the at most one `#[base]` field. (The
    `exported_fields` local of `parse_fields` is dropped by the source
    when building this result.) -/
structure Fields where
  all_field_names : List String
  base_field : Option ExportedField
deriving DecidableEq

/-- Inner attribute loop of `parse_fields` for one field `f`: walks the
    field attribute list with the running `is_base` flag, the
    struct-level `base_field` slot and the `exported_fields` accumulator.
    A `#[base]` marker when the slot is already taken fails with
    `MultipleBaseFields` naming the previous holder, at the span of the
    offending marker. -/
def scanFieldAttrs (f : NamedField) :
    List Attr → Bool → Option ExportedField → List ExportedField →
    Except Err (Bool × Option ExportedField × List ExportedField)
  | [], is_base, bf, ex => .ok (is_base, bf, ex)
  | a :: rest, is_base, bf, ex =>
    match get_single_path_segment a with
    | some p =>
      if p = "base" then
        match bf with
        | some prev_base => .error (.multipleBaseFields prev_base.name a.span)
        | Option.none =>
            scanFieldAttrs f rest true (some (ExportedField.new f)) ex
      else if p = "export" then
        scanFieldAttrs f rest is_base bf (ex ++ [ExportedField.new f])
      else
        scanFieldAttrs f rest is_base bf ex
    | Option.none => scanFieldAttrs f rest is_base bf ex

/-- Outer field loop of `parse_fields`: scans each field attribute list,
    then appends the field name to `all_field_names` unless the field was
    marked `#[base]`. The `exported_fields` accumulator is threaded but
    not part of the result (as in the source). -/
def parseFieldsGo :
    List NamedField → List String → Option ExportedField →
    List ExportedField → Except Err Fields
  | [], names, bf, _ex => .ok ⟨names, bf⟩
  | f :: rest, names, bf, ex =>
    match scanFieldAttrs f f.attributes false bf ex with
    | .error e => .error e
    | .ok (is_base, bf2, ex2) =>
        parseFieldsGo rest (if is_base then names else names ++ [f.name]) bf2 ex2

/-- Source `parse_fields`: unit structs have no fields, tuple structs are
    rejected with `UnsupportedFields` at the field-list span, named
    structs are scanned field by field. -/
def parse_fields (c : Struct) : Except Err Fields :=
  match c.fields with
  | StructFields.unit => parseFieldsGo [] [] Option.none []
  | StructFields.tuple _ => .error (.unsupportedFields c.fieldsSpan)
  | StructFields.named fl => parseFieldsGo fl [] Option.none []

/-- One initializer of the generated `__godot_init` constructor body:
    either `field: Default::default()` or `field: base` (the incoming
    base-object handle). -/
inductive FieldInit where
  | defaultInit (field : String)
  | baseInit (field : String)
deriving DecidableEq

/-- The generated constructor (the `GodotInit` impl body): the class it
    is for and its field initializers in emitted order. -/
structure ConstructorSpec where
  forClass : String
  inits : List FieldInit
deriving DecidableEq

/-- Source `make_godot_init_impl`: emits the default initializers for all
    non-base field names, in order, followed by the `base` handle
    assignment when a base field exists. -/
def make_godot_init_impl (class_name : String) (fields : Fields) :
    ConstructorSpec :=
  ⟨class_name,
    (fields.all_field_names.map FieldInit.defaultInit) ++
      (match fields.base_field with
       | some bf => [FieldInit.baseInit bf.name]
       | Option.none => [])⟩

/-- A host-callback function reference derived from a class name:
    `callbacks::create::<C>` or `callbacks::free::<C>`. -/
inductive FnRef where
  | create (className : String)
  | free (className : String)
deriving DecidableEq

/-- The registry entry payload (`ClassPlugin` with `PluginComponent::ClassDef`)
    appended to the global class registry by the emitted `plugin_add!`. -/
structure RegistryEntry where
  class_name : String
  base_class_name : String
  generated_create_fn : Option FnRef
  free_fn : FnRef
deriving DecidableEq

/-- The emitted `GodotClass` trait impl: class name, base type, the fixed
    user-domain declarer, and the memory-management mode inherited from
    the base type (recorded by the base type name it is taken from). -/
structure MetadataBinding where
  className : String
  base : String
  declarer : String
  memInheritedFromBase : String
deriving DecidableEq

/-- The full emitted artifact bundle of one successful pass: metadata
    binding, optional generated constructor, the registry appends
    performed (the sole persistent-state mutation), and the
    `inherits_transitive_<base>` compile-time assertion invocation
    (assertion name and the class it is applied to). -/
structure ClassOutput where
  metadata : MetadataBinding
  godot_init_impl : Option ConstructorSpec
  registryAppends : List RegistryEntry
  inheritsAssertion : String × String
deriving DecidableEq

/-- Source `transform`: classifies the declaration (non-structs fail with
    `UnsupportedShape`), resolves the struct attributes, then the fields
    (in that order), and assembles the emitted output. -/
def transform (input : Declaration) : Except Err ClassOutput :=
  match input with
  | Declaration.otherDecl => .error .unsupportedShape
  | Declaration.structDecl c =>
    match parse_struct_attributes c with
    | .error e => .error e
    | .ok struct_cfg =>
      match parse_fields c with
      | .error e => .error e
      | .ok fields =>
        .ok
          { metadata :=
              ⟨c.name, struct_cfg.base_ty, "UserDomain", struct_cfg.base_ty⟩
            godot_init_impl :=
              if struct_cfg.has_generated_init then
                some (make_godot_init_impl c.name fields)
              else Option.none
            registryAppends :=
              [⟨c.name, struct_cfg.base_ty,
                if struct_cfg.has_generated_init then
                  some (FnRef.create c.name)
                else Option.none,
                FnRef.free c.name⟩]
            inheritsAssertion :=
              ("inherits_transitive_" ++ struct_cfg.base_ty, c.name) }

/-
  Spec-side characterizations, used to state the verified properties.
-/

/-- True when an attribute is a single-segment `#[base]` marker. -/
def isBaseAttr (a : Attr) : Bool :=
  get_single_path_segment a = some "base"

/-- True when an attribute is a single-segment `#[export]` marker. -/
def isExportAttr (a : Attr) : Bool :=
  get_single_path_segment a = some "export"

/-- True when a field carries at least one `#[base]` marker. -/
def fieldHasBase (f : NamedField) : Bool :=
  !(f.attributes.filter isBaseAttr).isEmpty

/-- The `#[base]` marker occurrences of one field, in attribute order,
    each as the field name paired with the marker span. -/
def fieldBaseOccs (f : NamedField) : List (String × Nat) :=
  (f.attributes.filter isBaseAttr).map (fun a => (f.name, a.span))

/-- All `#[base]` marker occurrences of a field list, in declaration
    order (fields in order, then each field's attributes in order). -/
def baseMarkerOccs : List NamedField → List (String × Nat)
  | [] => []
  | f :: rest => fieldBaseOccs f ++ baseMarkerOccs rest

/-- Names of the fields carrying no `#[base]` marker, in declaration
    order: the fields subject to default initialization. -/
def plainNames : List NamedField → List String
  | [] => []
  | f :: rest =>
    if fieldHasBase f then plainNames rest else f.name :: plainNames rest

/-- The first-declared field carrying a `#[base]` marker, if any. -/
def firstBaseField : List NamedField → Option ExportedField
  | [] => Option.none
  | f :: rest =>
    if fieldHasBase f then some (ExportedField.new f) else firstBaseField rest

/-- A field with all single-segment `#[export]` markers removed. -/
def eraseExportAttrs (f : NamedField) : NamedField :=
  ⟨f.name, f.ty, f.attributes.filter (fun a => !isExportAttr a)⟩

/-- A field-list shape with all `#[export]` markers removed. -/
def eraseExportFields : StructFields → StructFields
  | StructFields.named fl => StructFields.named (fl.map eraseExportAttrs)
  | s => s

/-- A struct with all field-level `#[export]` markers removed; struct
    attributes, names, types and spans are untouched. -/
def eraseExportStruct (c : Struct) : Struct :=
  ⟨c.name, c.attributes, eraseExportFields c.fields, c.fieldsSpan⟩

/-- Projection of a field-scan result onto the components that survive
    into `Fields`: the `is_base` flag and the base-field slot (the
    `exported_fields` accumulator is dropped by the source). -/
def scanRes (r : Except Err (Bool × Option ExportedField × List ExportedField)) :
    Except Err (Bool × Option ExportedField) :=
  r.map (fun t => (t.1, t.2.1))

/-
  Lemmas about the inner field-attribute loop `scanFieldAttrs`.
-/

theorem isBaseAttr_seg {a : Attr} (h : isBaseAttr a = true) :
    get_single_path_segment a = some "base" := by
  simpa [isBaseAttr] using h

theorem not_isBaseAttr_seg {a : Attr} {p : String} (h : isBaseAttr a = false)
    (hseg : get_single_path_segment a = some p) : p ≠ "base" := by
  intro hp
  rw [isBaseAttr, hseg, hp] at h
  simp at h

theorem scan_no_base (f : NamedField) (attrs : List Attr) :
    ∀ (ib : Bool) (bf : Option ExportedField) (ex : List ExportedField),
    attrs.filter isBaseAttr = [] →
    ∃ ex2, scanFieldAttrs f attrs ib bf ex = .ok (ib, bf, ex2) := by
  induction attrs with
  | nil => intro ib bf ex _; exact ⟨ex, rfl⟩
  | cons a rest ih =>
    intro ib bf ex h
    rw [List.filter_cons] at h
    by_cases hb : isBaseAttr a = true
    · simp [hb] at h
    · rw [Bool.not_eq_true] at hb
      simp only [hb, Bool.false_eq_true, if_false] at h
      cases hseg : get_single_path_segment a with
      | none => simpa [scanFieldAttrs, hseg] using ih ib bf ex h
      | some p =>
        have hp : p ≠ "base" := not_isBaseAttr_seg hb hseg
        by_cases hpe : p = "export"
        · simpa [scanFieldAttrs, hseg, hp, hpe] using
            ih ib bf (ex ++ [ExportedField.new f]) h
        · simpa [scanFieldAttrs, hseg, hp, hpe] using ih ib bf ex h

theorem scan_base_taken (f : NamedField) (attrs : List Attr) :
    ∀ (ib : Bool) (prev : ExportedField) (ex : List ExportedField)
      (a1 : Attr) (arest : List Attr),
    attrs.filter isBaseAttr = a1 :: arest →
    scanFieldAttrs f attrs ib (some prev) ex =
      .error (.multipleBaseFields prev.name a1.span) := by
  induction attrs with
  | nil => intro ib prev ex a1 arest h; simp at h
  | cons a rest ih =>
    intro ib prev ex a1 arest h
    rw [List.filter_cons] at h
    by_cases hb : isBaseAttr a = true
    · have hseg : get_single_path_segment a = some "base" := isBaseAttr_seg hb
      simp only [hb, if_true] at h
      obtain ⟨ha, -⟩ := List.cons.inj h
      subst ha
      simp [scanFieldAttrs, hseg]
    · rw [Bool.not_eq_true] at hb
      simp only [hb, Bool.false_eq_true, if_false] at h
      cases hseg : get_single_path_segment a with
      | none => simpa [scanFieldAttrs, hseg] using ih ib prev ex a1 arest h
      | some p =>
        have hp : p ≠ "base" := not_isBaseAttr_seg hb hseg
        by_cases hpe : p = "export"
        · simpa [scanFieldAttrs, hseg, hp, hpe] using
            ih ib prev (ex ++ [ExportedField.new f]) a1 arest h
        · simpa [scanFieldAttrs, hseg, hp, hpe] using ih ib prev ex a1 arest h

theorem scan_one_base (f : NamedField) (attrs : List Attr) :
    ∀ (ib : Bool) (ex : List ExportedField) (a1 : Attr),
    attrs.filter isBaseAttr = [a1] →
    ∃ ex2, scanFieldAttrs f attrs ib Option.none ex =
      .ok (true, some (ExportedField.new f), ex2) := by
  induction attrs with
  | nil => intro ib ex a1 h; simp at h
  | cons a rest ih =>
    intro ib ex a1 h
    rw [List.filter_cons] at h
    by_cases hb : isBaseAttr a = true
    · have hseg : get_single_path_segment a = some "base" := isBaseAttr_seg hb
      simp only [hb, if_true] at h
      obtain ⟨-, hrest⟩ := List.cons.inj h
      obtain ⟨ex2, hex2⟩ :=
        scan_no_base f rest true (some (ExportedField.new f)) ex hrest
      exact ⟨ex2, by simpa [scanFieldAttrs, hseg] using hex2⟩
    · rw [Bool.not_eq_true] at hb
      simp only [hb, Bool.false_eq_true, if_false] at h
      cases hseg : get_single_path_segment a with
      | none => simpa [scanFieldAttrs, hseg] using ih ib ex a1 h
      | some p =>
        have hp : p ≠ "base" := not_isBaseAttr_seg hb hseg
        by_cases hpe : p = "export"
        · simpa [scanFieldAttrs, hseg, hp, hpe] using
            ih ib (ex ++ [ExportedField.new f]) a1 h
        · simpa [scanFieldAttrs, hseg, hp, hpe] using ih ib ex a1 h

theorem scan_two_base (f : NamedField) (attrs : List Attr) :
    ∀ (ib : Bool) (ex : List ExportedField) (a1 a2 : Attr) (arest : List Attr),
    attrs.filter isBaseAttr = a1 :: a2 :: arest →
    scanFieldAttrs f attrs ib Option.none ex =
      .error (.multipleBaseFields f.name a2.span) := by
  induction attrs with
  | nil => intro ib ex a1 a2 arest h; simp at h
  | cons a rest ih =>
    intro ib ex a1 a2 arest h
    rw [List.filter_cons] at h
    by_cases hb : isBaseAttr a = true
    · have hseg : get_single_path_segment a = some "base" := isBaseAttr_seg hb
      simp only [hb, if_true] at h
      obtain ⟨-, hrest⟩ := List.cons.inj h
      have := scan_base_taken f rest true (ExportedField.new f) ex a2 arest hrest
      simpa [scanFieldAttrs, hseg, ExportedField.new] using this
    · rw [Bool.not_eq_true] at hb
      simp only [hb, Bool.false_eq_true, if_false] at h
      cases hseg : get_single_path_segment a with
      | none => simpa [scanFieldAttrs, hseg] using ih ib ex a1 a2 arest h
      | some p =>
        have hp : p ≠ "base" := not_isBaseAttr_seg hb hseg
        by_cases hpe : p = "export"
        · simpa [scanFieldAttrs, hseg, hp, hpe] using
            ih ib (ex ++ [ExportedField.new f]) a1 a2 arest h
        · simpa [scanFieldAttrs, hseg, hp, hpe] using ih ib ex a1 a2 arest h

/-
  Lemmas about the outer field loop `parseFieldsGo`.
-/

theorem fieldHasBase_false {f : NamedField}
    (h : f.attributes.filter isBaseAttr = []) : fieldHasBase f = false := by
  simp [fieldHasBase, h]

theorem fieldHasBase_true {f : NamedField} {a : Attr} {arest : List Attr}
    (h : f.attributes.filter isBaseAttr = a :: arest) :
    fieldHasBase f = true := by
  simp [fieldHasBase, h]

theorem fieldBaseOccs_nil {f : NamedField}
    (h : f.attributes.filter isBaseAttr = []) : fieldBaseOccs f = [] := by
  simp [fieldBaseOccs, h]

theorem go_taken_clean (fl : List NamedField) :
    ∀ (names : List String) (prev : ExportedField) (ex : List ExportedField),
    baseMarkerOccs fl = [] →
    parseFieldsGo fl names (some prev) ex =
      .ok ⟨names ++ plainNames fl, some prev⟩ := by
  induction fl with
  | nil => intro names prev ex _; simp [parseFieldsGo, plainNames]
  | cons f rest ih =>
    intro names prev ex h
    rw [baseMarkerOccs, List.append_eq_nil] at h
    obtain ⟨hocc, hrest⟩ := h
    have hfil : f.attributes.filter isBaseAttr = [] := by
      by_contra hne
      rcases List.exists_cons_of_ne_nil hne with ⟨a, arest, ha⟩
      rw [fieldBaseOccs, ha] at hocc
      simp at hocc
    obtain ⟨ex2, hscan⟩ := scan_no_base f f.attributes false (some prev) ex hfil
    rw [parseFieldsGo, hscan]
    have := ih (names ++ [f.name]) prev ex2 hrest
    simpa [plainNames, fieldHasBase_false hfil] using this

theorem go_taken_marker (fl : List NamedField) :
    ∀ (names : List String) (prev : ExportedField) (ex : List ExportedField)
      (n : String) (s : Nat) (orest : List (String × Nat)),
    baseMarkerOccs fl = (n, s) :: orest →
    parseFieldsGo fl names (some prev) ex =
      .error (.multipleBaseFields prev.name s) := by
  induction fl with
  | nil => intro names prev ex n s orest h; simp [baseMarkerOccs] at h
  | cons f rest ih =>
    intro names prev ex n s orest h
    rw [baseMarkerOccs] at h
    cases hfil : f.attributes.filter isBaseAttr with
    | nil =>
      rw [fieldBaseOccs_nil hfil, List.nil_append] at h
      obtain ⟨ex2, hscan⟩ := scan_no_base f f.attributes false (some prev) ex hfil
      rw [parseFieldsGo, hscan]
      exact ih (names ++ [f.name]) prev ex2 n s orest h
    | cons a1 arest =>
      rw [fieldBaseOccs, hfil] at h
      simp only [List.map_cons, List.cons_append, List.cons.injEq,
        Prod.mk.injEq] at h
      obtain ⟨⟨-, hs⟩, -⟩ := h
      have hscan :=
        scan_base_taken f f.attributes false prev ex a1 arest hfil
      rw [parseFieldsGo, hscan, hs]

theorem go_none_two (fl : List NamedField) :
    ∀ (names : List String) (ex : List ExportedField)
      (n1 n2 : String) (s1 s2 : Nat) (orest : List (String × Nat)),
    baseMarkerOccs fl = (n1, s1) :: (n2, s2) :: orest →
    parseFieldsGo fl names Option.none ex =
      .error (.multipleBaseFields n1 s2) := by
  induction fl with
  | nil => intro names ex n1 n2 s1 s2 orest h; simp [baseMarkerOccs] at h
  | cons f rest ih =>
    intro names ex n1 n2 s1 s2 orest h
    rw [baseMarkerOccs] at h
    cases hfil : f.attributes.filter isBaseAttr with
    | nil =>
      rw [fieldBaseOccs_nil hfil, List.nil_append] at h
      obtain ⟨ex2, hscan⟩ :=
        scan_no_base f f.attributes false Option.none ex hfil
      rw [parseFieldsGo, hscan]
      exact ih (names ++ [f.name]) ex2 n1 n2 s1 s2 orest h
    | cons a1 arest =>
      cases arest with
      | nil =>
        rw [fieldBaseOccs, hfil] at h
        simp only [List.map_cons, List.map_nil, List.cons_append,
          List.nil_append, List.cons.injEq, Prod.mk.injEq] at h
        obtain ⟨⟨hn1, -⟩, hrest⟩ := h
        obtain ⟨ex2, hscan⟩ := scan_one_base f f.attributes false ex a1 hfil
        rw [parseFieldsGo, hscan]
        have := go_taken_marker rest names (ExportedField.new f) ex2 n2 s2
          orest hrest
        simpa [ExportedField.new, hn1] using this
      | cons a2 arest2 =>
        rw [fieldBaseOccs, hfil] at h
        simp only [List.map_cons, List.cons_append, List.cons.injEq,
          Prod.mk.injEq] at h
        obtain ⟨⟨hn1, -⟩, ⟨-, hs2⟩, -⟩ := h
        have hscan := scan_two_base f f.attributes false ex a1 a2 arest2 hfil
        rw [parseFieldsGo, hscan, hn1, hs2]

theorem go_none_atmost_one (fl : List NamedField) :
    ∀ (names : List String) (ex : List ExportedField),
    (baseMarkerOccs fl = [] ∨ ∃ n s, baseMarkerOccs fl = [(n, s)]) →
    parseFieldsGo fl names Option.none ex =
      .ok ⟨names ++ plainNames fl, firstBaseField fl⟩ := by
  induction fl with
  | nil =>
    intro names ex _
    simp [parseFieldsGo, plainNames, firstBaseField]
  | cons f rest ih =>
    intro names ex h
    cases hfil : f.attributes.filter isBaseAttr with
    | nil =>
      obtain ⟨ex2, hscan⟩ :=
        scan_no_base f f.attributes false Option.none ex hfil
      rw [parseFieldsGo, hscan]
      have hrest : baseMarkerOccs rest = [] ∨
          ∃ n s, baseMarkerOccs rest = [(n, s)] := by
        rcases h with h | ⟨n, s, h⟩ <;>
          rw [baseMarkerOccs, fieldBaseOccs_nil hfil, List.nil_append] at h
        · exact Or.inl h
        · exact Or.inr ⟨n, s, h⟩
      have := ih (names ++ [f.name]) ex2 hrest
      simpa [plainNames, firstBaseField, fieldHasBase_false hfil] using this
    | cons a1 arest =>
      have honef : arest = [] ∧ baseMarkerOccs rest = [] := by
        rcases h with h | ⟨n, s, h⟩ <;>
          rw [baseMarkerOccs, fieldBaseOccs, hfil] at h
        · simp at h
        · simp only [List.map_cons, List.cons_append, List.cons.injEq] at h
          obtain ⟨-, h2⟩ := h
          rw [List.append_eq_nil] at h2
          obtain ⟨h2a, h2b⟩ := h2
          exact ⟨List.map_eq_nil_iff.mp h2a, h2b⟩
      obtain ⟨harest, hrest⟩ := honef
      subst harest
      obtain ⟨ex2, hscan⟩ := scan_one_base f f.attributes false ex a1 hfil
      rw [parseFieldsGo, hscan]
      have := go_taken_clean rest names (ExportedField.new f) ex2 hrest
      simpa [plainNames, firstBaseField, fieldHasBase_true hfil] using this

/-
  Characterizations of `parse_fields` and helpers for `transform`.
-/

theorem parse_fields_named {c : Struct} {fl : List NamedField}
    (hf : c.fields = StructFields.named fl) :
    parse_fields c = parseFieldsGo fl [] Option.none [] := by
  rw [parse_fields, hf]

theorem parse_fields_two_occs {c : Struct} {fl : List NamedField}
    {n1 n2 : String} {s1 s2 : Nat} {orest : List (String × Nat)}
    (hf : c.fields = StructFields.named fl)
    (hocc : baseMarkerOccs fl = (n1, s1) :: (n2, s2) :: orest) :
    parse_fields c = .error (.multipleBaseFields n1 s2) := by
  rw [parse_fields_named hf]
  exact go_none_two fl [] [] n1 n2 s1 s2 orest hocc

theorem parse_fields_ok_char {c : Struct} {fl : List NamedField}
    {flds : Fields} (hf : c.fields = StructFields.named fl)
    (h : parse_fields c = .ok flds) :
    flds = ⟨plainNames fl, firstBaseField fl⟩ := by
  rw [parse_fields_named hf] at h
  rcases hocc : baseMarkerOccs fl with - | ⟨⟨n1, s1⟩, - | ⟨⟨n2, s2⟩, orest⟩⟩
  · rw [go_none_atmost_one fl [] [] (Or.inl hocc)] at h
    simpa using (Except.ok.inj h).symm
  · rw [go_none_atmost_one fl [] [] (Or.inr ⟨n1, s1, hocc⟩)] at h
    simpa using (Except.ok.inj h).symm
  · rw [go_none_two fl [] [] n1 n2 s1 s2 orest hocc] at h
    cases h

theorem first_occ_is_first_base_field {fl : List NamedField}
    {n : String} {s : Nat} {orest : List (String × Nat)}
    (hocc : baseMarkerOccs fl = (n, s) :: orest) :
    ∃ bf, firstBaseField fl = some bf ∧ bf.name = n := by
  induction fl with
  | nil => simp [baseMarkerOccs] at hocc
  | cons f rest ih =>
    rw [baseMarkerOccs] at hocc
    cases hfil : f.attributes.filter isBaseAttr with
    | nil =>
      rw [fieldBaseOccs_nil hfil, List.nil_append] at hocc
      obtain ⟨bf, h1, h2⟩ := ih hocc
      exact ⟨bf, by simpa [firstBaseField, fieldHasBase_false hfil] using h1, h2⟩
    | cons a1 arest =>
      rw [fieldBaseOccs, hfil] at hocc
      simp only [List.map_cons, List.cons_append, List.cons.injEq,
        Prod.mk.injEq] at hocc
      obtain ⟨⟨hn, -⟩, -⟩ := hocc
      refine ⟨ExportedField.new f, ?_, hn⟩
      simp [firstBaseField, fieldHasBase_true hfil]

theorem transform_fields_error {c : Struct} {e : Err}
    (hpf : parse_fields c = .error e) (cfg : ClassAttributes)
    (hcfg : parse_struct_attributes c = .ok cfg) :
    transform (Declaration.structDecl c) = .error e := by
  rw [transform, hcfg, hpf]

theorem baseMarkerOccs_append (l1 l2 : List NamedField) :
    baseMarkerOccs (l1 ++ l2) = baseMarkerOccs l1 ++ baseMarkerOccs l2 := by
  induction l1 with
  | nil => simp [baseMarkerOccs]
  | cons f rest ih => simp [baseMarkerOccs, ih]

theorem baseMarkerOccs_nil_of {l : List NamedField}
    (h : ∀ g ∈ l, g.attributes.filter isBaseAttr = []) :
    baseMarkerOccs l = [] := by
  induction l with
  | nil => rfl
  | cons f rest ih =>
    rw [baseMarkerOccs, fieldBaseOccs_nil (h f (List.mem_cons_self f rest)),
      List.nil_append]
    exact ih (fun g hg => h g (List.mem_cons_of_mem f hg))

/-
  Lemmas about the struct-attribute resolver.
-/

theorem isGodotAttr_filter (attrs : List Attr) :
    ∀ (found : Option (Nat × KvMap)),
    attrs.filter (fun a => path_is_single a.path "godot") = [] →
    parseGodotAttrGo attrs found = .ok found := by
  induction attrs with
  | nil => intro found _; rfl
  | cons a rest ih =>
    intro found h
    rw [List.filter_cons] at h
    by_cases hg : path_is_single a.path "godot" = true
    · simp [hg] at h
    · rw [Bool.not_eq_true] at hg
      simp only [hg, Bool.false_eq_true, if_false] at h
      simpa [parseGodotAttrGo, hg] using ih found h

theorem go_godot_second (attrs : List Attr) :
    ∀ (sp : Nat) (m : KvMap) (a : Attr) (arest : List Attr),
    attrs.filter (fun a => path_is_single a.path "godot") = a :: arest →
    parseGodotAttrGo attrs (some (sp, m)) =
      .error (.duplicateConfigAttribute a.span) := by
  induction attrs with
  | nil => intro sp m a arest h; simp at h
  | cons b rest ih =>
    intro sp m a arest h
    rw [List.filter_cons] at h
    by_cases hg : path_is_single b.path "godot" = true
    · simp only [hg, if_true] at h
      obtain ⟨hb, -⟩ := List.cons.inj h
      subst hb
      simp [parseGodotAttrGo, hg]
    · rw [Bool.not_eq_true] at hg
      simp only [hg, Bool.false_eq_true, if_false] at h
      simpa [parseGodotAttrGo, hg] using ih sp m a arest h

theorem go_godot_two (attrs : List Attr) :
    ∀ (a1 a2 : Attr) (arest : List Attr),
    attrs.filter (fun a => path_is_single a.path "godot") = a1 :: a2 :: arest →
    parseGodotAttrGo attrs Option.none =
      .error (.duplicateConfigAttribute a2.span) := by
  induction attrs with
  | nil => intro a1 a2 arest h; simp at h
  | cons b rest ih =>
    intro a1 a2 arest h
    rw [List.filter_cons] at h
    by_cases hg : path_is_single b.path "godot" = true
    · simp only [hg, if_true] at h
      obtain ⟨-, hrest⟩ := List.cons.inj h
      simpa [parseGodotAttrGo, hg] using
        go_godot_second rest b.span b.kvs a2 arest hrest
    · rw [Bool.not_eq_true] at hg
      simp only [hg, Bool.false_eq_true, if_false] at h
      simpa [parseGodotAttrGo, hg] using ih a1 a2 arest h

theorem psaFinish_ok {sp : Nat} {b : String} {hgi : Bool} {m : KvMap}
    {cfg : ClassAttributes} (h : psaFinish sp b hgi m = .ok cfg) :
    cfg = ⟨b, hgi⟩ := by
  rw [psaFinish] at h
  cases hk : ensure_kv_empty m sp with
  | error e => rw [hk] at h; cases h
  | ok u => rw [hk] at h; exact (Except.ok.inj h).symm

theorem psaInit_ok {sp : Nat} {b : String} {m : KvMap}
    {cfg : ClassAttributes} (h : psaInit sp b m = .ok cfg) :
    cfg.base_ty = b := by
  rw [psaInit] at h
  cases hk : (kvRemove "init" m).1 with
  | none => rw [hk] at h; rw [psaFinish_ok h]
  | some v =>
    cases v with
    | none => rw [hk] at h; rw [psaFinish_ok h]
    | ident s => rw [hk] at h; cases h
    | lit s => rw [hk] at h; cases h

theorem psaInit_ok_flag {sp : Nat} {b : String} {m : KvMap}
    {cfg : ClassAttributes} (hk : (kvRemove "init" m).1 = some KvValue.none)
    (h : psaInit sp b m = .ok cfg) : cfg.has_generated_init = true := by
  rw [psaInit, hk] at h
  rw [psaFinish_ok h]

theorem psaInit_valued {sp : Nat} {b : String} {m : KvMap} {v : KvValue}
    (hk : (kvRemove "init" m).1 = some v) (hv : v ≠ KvValue.none) :
    psaInit sp b m = .error (.initTakesNoValue sp) := by
  rw [psaInit, hk]
  cases v with
  | none => exact absurd rfl hv
  | ident s => rfl
  | lit s => rfl

/-
  Export-marker erasure: the `exported_fields` accumulator never reaches
  the emitted output, so `#[export]` markers are invisible to the pass.
-/

theorem isExportAttr_seg {a : Attr} (h : isExportAttr a = true) :
    get_single_path_segment a = some "export" := by
  simpa [isExportAttr] using h

theorem not_isExportAttr_seg {a : Attr} {p : String}
    (h : isExportAttr a = false)
    (hseg : get_single_path_segment a = some p) : p ≠ "export" := by
  intro hp
  rw [isExportAttr, hseg, hp] at h
  simp at h

theorem scan_erase (f g : NamedField) (hn : f.name = g.name)
    (ht : f.ty = g.ty) (attrs : List Attr) :
    ∀ (ib : Bool) (bf : Option ExportedField) (ex1 ex2 : List ExportedField),
    scanRes (scanFieldAttrs f (attrs.filter (fun a => !isExportAttr a)) ib bf ex1) =
    scanRes (scanFieldAttrs g attrs ib bf ex2) := by
  have hnew : ExportedField.new f = ExportedField.new g := by
    simp [ExportedField.new, hn, ht]
  induction attrs with
  | nil => intro ib bf ex1 ex2; rfl
  | cons a rest ih =>
    intro ib bf ex1 ex2
    rw [List.filter_cons]
    by_cases he : isExportAttr a = true
    · have hseg : get_single_path_segment a = some "export" :=
        isExportAttr_seg he
      simp only [he, Bool.not_true, Bool.false_eq_true, if_false]
      have hrhs : scanFieldAttrs g (a :: rest) ib bf ex2 =
          scanFieldAttrs g rest ib bf (ex2 ++ [ExportedField.new g]) := by
        simp [scanFieldAttrs, hseg]
      rw [hrhs]
      exact ih ib bf ex1 (ex2 ++ [ExportedField.new g])
    · rw [Bool.not_eq_true] at he
      simp only [he, Bool.not_false, if_true]
      cases hseg : get_single_path_segment a with
      | none =>
        simp only [scanFieldAttrs, hseg]
        exact ih ib bf ex1 ex2
      | some p =>
        have hpe : p ≠ "export" := not_isExportAttr_seg he hseg
        by_cases hpb : p = "base"
        · subst hpb
          cases bf with
          | none =>
            simp only [scanFieldAttrs, hseg, if_pos rfl]
            rw [hnew]
            exact ih true (some (ExportedField.new g)) ex1 ex2
          | some prev => simp [scanFieldAttrs, hseg]
        · simp only [scanFieldAttrs, hseg, if_neg hpb, if_neg hpe]
          exact ih ib bf ex1 ex2

theorem go_erase (fl : List NamedField) :
    ∀ (names : List String) (bf : Option ExportedField)
      (ex1 ex2 : List ExportedField),
    parseFieldsGo (fl.map eraseExportAttrs) names bf ex1 =
    parseFieldsGo fl names bf ex2 := by
  induction fl with
  | nil => intro names bf ex1 ex2; rfl
  | cons f rest ih =>
    intro names bf ex1 ex2
    have hscan : scanRes (scanFieldAttrs (eraseExportAttrs f)
        (eraseExportAttrs f).attributes false bf ex1) =
        scanRes (scanFieldAttrs f f.attributes false bf ex2) :=
      scan_erase (eraseExportAttrs f) f rfl rfl f.attributes false bf ex1 ex2
    rw [List.map_cons, parseFieldsGo, parseFieldsGo]
    cases h1 : scanFieldAttrs (eraseExportAttrs f)
        (eraseExportAttrs f).attributes false bf ex1 with
    | error e1 =>
      cases h2 : scanFieldAttrs f f.attributes false bf ex2 with
      | error e2 =>
        rw [h1, h2] at hscan
        simp only [scanRes, Except.map, Except.error.injEq] at hscan
        rw [hscan]
      | ok t2 =>
        rw [h1, h2] at hscan
        simp [scanRes, Except.map] at hscan
    | ok t1 =>
      obtain ⟨ib1, bf1, exA⟩ := t1
      cases h2 : scanFieldAttrs f f.attributes false bf ex2 with
      | error e2 =>
        rw [h1, h2] at hscan
        simp [scanRes, Except.map] at hscan
      | ok t2 =>
        obtain ⟨ib2, bf2, exB⟩ := t2
        rw [h1, h2] at hscan
        simp only [scanRes, Except.map, Except.ok.injEq, Prod.mk.injEq] at hscan
        obtain ⟨hib, hbf⟩ := hscan
        have hname : (eraseExportAttrs f).name = f.name := rfl
        simp only [hib, hbf, hname]
        exact ih (if ib2 = true then names else names ++ [f.name]) bf2 exA exB

theorem parse_fields_erase (c : Struct) :
    parse_fields (eraseExportStruct c) = parse_fields c := by
  cases hcf : c.fields with
  | unit =>
    have h1 : (eraseExportStruct c).fields = StructFields.unit := by
      simp [eraseExportStruct, eraseExportFields, hcf]
    rw [parse_fields, parse_fields, hcf, h1]
  | tuple n =>
    have h1 : (eraseExportStruct c).fields = StructFields.tuple n := by
      simp [eraseExportStruct, eraseExportFields, hcf]
    have h2 : (eraseExportStruct c).fieldsSpan = c.fieldsSpan := rfl
    rw [parse_fields, parse_fields, hcf, h1, h2]
  | named fl =>
    have h1 : (eraseExportStruct c).fields =
        StructFields.named (fl.map eraseExportAttrs) := by
      simp [eraseExportStruct, eraseExportFields, hcf]
    rw [parse_fields_named h1, parse_fields_named hcf]
    exact go_erase fl [] Option.none [] []

theorem transform_erase (c : Struct) :
    transform (Declaration.structDecl (eraseExportStruct c)) =
    transform (Declaration.structDecl c) := by
  have hpsa : parse_struct_attributes (eraseExportStruct c) =
      parse_struct_attributes c := rfl
  have hname : (eraseExportStruct c).name = c.name := rfl
  rw [transform, transform, hpsa, parse_fields_erase, hname]

/-
  Claim theorems.
-/

/-- Tuple struct whose `#[godot]` attribute carries an invalid `init`
    value: the input of the C1 counterexample. -/
def c1cx_struct : Struct :=
  ⟨"S", [⟨["godot"], [("init", KvValue.ident "foo")], 7⟩],
    StructFields.tuple 1, 3⟩

/-- C1 counterexample: a tuple struct whose class-level `#[godot]`
    attribute carries an invalid `init` value fails with the
    `InitTakesNoValue` diagnostic of the attribute resolver, not with the
    tuple-struct rejection `UnsupportedFields`: `parse_struct_attributes`
    runs before `parse_fields` in `transform`, so attributes are
    inspected first. -/
theorem c1_attr_error_wins_counterexample :
    transform (Declaration.structDecl c1cx_struct) =
      .error (.initTakesNoValue 7) ∧
    (Except.error (Err.initTakesNoValue 7) :
        Except Err ClassOutput) ≠
      .error (.unsupportedFields c1cx_struct.fieldsSpan) := by
  exact ⟨by decide, by decide⟩

/-- C1 (amended): for every declaration whose struct uses a tuple-style
    field list, if the class-level attributes resolve without error, the
    pass fails with the `UnsupportedFields` diagnostic at the field-list
    span; attribute errors take precedence because the attribute resolver
    runs before the field-shape check. -/
theorem c1_tuple_rejected_after_attrs (c : Struct) (n : Nat)
    (cfg : ClassAttributes)
    (hf : c.fields = StructFields.tuple n)
    (hattr : parse_struct_attributes c = .ok cfg) :
    transform (Declaration.structDecl c) =
      .error (.unsupportedFields c.fieldsSpan) := by
  have hpf : parse_fields c = .error (.unsupportedFields c.fieldsSpan) := by
    rw [parse_fields, hf]
  exact transform_fields_error hpf cfg hattr

/-- C1 witness: a tuple struct with a valid `#[godot(init)]` attribute is
    rejected with `UnsupportedFields` at the field-list span. -/
theorem c1_tuple_rejected_after_attrs_witness :
    transform (Declaration.structDecl
      ⟨"S", [⟨["godot"], [("init", KvValue.none)], 5⟩],
        StructFields.tuple 2, 9⟩) =
      .error (.unsupportedFields 9) :=
  (c1_tuple_rejected_after_attrs
    ⟨"S", [⟨["godot"], [("init", KvValue.none)], 5⟩],
      StructFields.tuple 2, 9⟩
    2 ⟨"RefCounted", true⟩ rfl (by decide)).trans (by decide)

/-- C2: for every named-field struct whose resolved configuration has
    `has_generated_init` true and whose pass succeeds, the synthesized
    constructor initializes exactly the fields of the struct: every field
    not marked `#[base]` is set to its type's default value, in field
    declaration order, followed by the assignment of the incoming base
    handle to the `#[base]` field when one exists (and by nothing when no
    field is marked `#[base]`, so the handle is stored nowhere); a
    `#[base]` field is never default-initialized, even when it also
    carries `#[export]`, and no other initializer is emitted. -/
theorem c2_generated_init (c : Struct) (cfg : ClassAttributes)
    (fl : List NamedField) (out : ClassOutput)
    (hcfg : parse_struct_attributes c = .ok cfg)
    (hinit : cfg.has_generated_init = true)
    (hf : c.fields = StructFields.named fl)
    (hok : transform (Declaration.structDecl c) = .ok out) :
    out.godot_init_impl = some ⟨c.name,
      (plainNames fl).map FieldInit.defaultInit ++
        (match firstBaseField fl with
         | some bf => [FieldInit.baseInit bf.name]
         | Option.none => [])⟩ := by
  simp only [transform, hcfg] at hok
  cases hpf : parse_fields c with
  | error e => rw [hpf] at hok; cases hok
  | ok flds =>
    rw [hpf] at hok
    simp only at hok
    have hout := Except.ok.inj hok
    subst hout
    rw [parse_fields_ok_char hf hpf]
    simp [make_godot_init_impl, hinit]

/-- Input struct of the C2 witness: plain fields `a`, `b` and a
    `#[base]` field `base_obj`, configured with `#[godot(init)]`. -/
def c2w_struct : Struct :=
  ⟨"T", [⟨["godot"], [("init", KvValue.none)], 1⟩],
    StructFields.named
      [⟨"a", "i32", []⟩, ⟨"b", "f32", []⟩,
       ⟨"base_obj", "Base", [⟨["base"], [], 2⟩]⟩], 0⟩

/-- Output of the pass on the C2 witness struct. -/
def c2w_out : ClassOutput :=
  { metadata := ⟨"T", "RefCounted", "UserDomain", "RefCounted"⟩
    godot_init_impl := some ⟨"T",
      [FieldInit.defaultInit "a", FieldInit.defaultInit "b",
       FieldInit.baseInit "base_obj"]⟩
    registryAppends :=
      [⟨"T", "RefCounted", some (FnRef.create "T"), FnRef.free "T"⟩]
    inheritsAssertion := ("inherits_transitive_RefCounted", "T") }

/-- C2 witness: the round-trip struct of the spec yields a constructor
    that defaults `a` then `b` and assigns the handle to `base_obj`. -/
theorem c2_generated_init_witness :
    c2w_out.godot_init_impl = some ⟨"T",
      [FieldInit.defaultInit "a", FieldInit.defaultInit "b",
       FieldInit.baseInit "base_obj"]⟩ :=
  (c2_generated_init c2w_struct ⟨"RefCounted", true⟩
    [⟨"a", "i32", []⟩, ⟨"b", "f32", []⟩,
     ⟨"base_obj", "Base", [⟨["base"], [], 2⟩]⟩]
    c2w_out (by decide) rfl rfl (by decide)).trans (by decide)

/-- C3: for every struct whose `#[base]` marker occurrences (fields in
    declaration order, markers in attribute order) number two or more,
    the field scan fails with `MultipleBaseFields`; the error names the
    first marker occurrence's field — which is exactly the first-declared
    base field — and its span is the second occurrence's marker span.
    The full pass fails the same way whenever the attribute resolver
    succeeds. -/
theorem c3_multiple_base_fields (c : Struct) (fl : List NamedField)
    (n1 n2 : String) (s1 s2 : Nat) (orest : List (String × Nat))
    (hf : c.fields = StructFields.named fl)
    (hocc : baseMarkerOccs fl = (n1, s1) :: (n2, s2) :: orest) :
    parse_fields c = .error (.multipleBaseFields n1 s2) ∧
    (∃ bf, firstBaseField fl = some bf ∧ bf.name = n1) ∧
    (∀ cfg, parse_struct_attributes c = .ok cfg →
      transform (Declaration.structDecl c) =
        .error (.multipleBaseFields n1 s2)) := by
  have hpf := parse_fields_two_occs hf hocc
  exact ⟨hpf, first_occ_is_first_base_field hocc,
    fun cfg hcfg => transform_fields_error hpf cfg hcfg⟩

/-- Input struct of the C3 witness: fields `x` and `y`, each marked
    `#[base]`. -/
def c3w_struct : Struct :=
  ⟨"S", [],
    StructFields.named
      [⟨"x", "A", [⟨["base"], [], 10⟩]⟩,
       ⟨"y", "B", [⟨["base"], [], 11⟩]⟩], 0⟩

/-- C3 witness: two `#[base]` fields fail with `MultipleBaseFields`
    naming the first field `x`, at the second marker's span. -/
theorem c3_multiple_base_fields_witness :
    parse_fields c3w_struct = .error (.multipleBaseFields "x" 11) ∧
    transform (Declaration.structDecl c3w_struct) =
      .error (.multipleBaseFields "x" 11) := by
  have h := c3_multiple_base_fields c3w_struct
    [⟨"x", "A", [⟨["base"], [], 10⟩]⟩, ⟨"y", "B", [⟨["base"], [], 11⟩]⟩]
    "x" "y" 10 11 [] rfl (by decide)
  exact ⟨h.1, h.2.2 ⟨"RefCounted", false⟩ (by decide)⟩

/-- C4: for every struct whose `#[godot]` attribute body contains a
    `base` key, a bare-identifier value `X` makes the resolved base type
    `X` (whenever the resolver succeeds), and any non-identifier value
    fails the pass with `InvalidBaseValue` at the attribute span. -/
theorem c4_base_key (c : Struct) (sp : Nat) (m : KvMap)
    (hattr : parse_godot_attr c.attributes = .ok (some (sp, m))) :
    (∀ x : String, (kvRemove "base" m).1 = some (KvValue.ident x) →
      ∀ cfg : ClassAttributes, parse_struct_attributes c = .ok cfg →
        cfg.base_ty = x)
    ∧ (∀ v : KvValue, (kvRemove "base" m).1 = some v →
        (∀ x : String, v ≠ KvValue.ident x) →
        parse_struct_attributes c = .error (.invalidBaseValue sp)) := by
  constructor
  · intro x hx cfg hcfg
    simp only [parse_struct_attributes, hattr, hx] at hcfg
    exact psaInit_ok hcfg
  · intro v hv hnident
    simp only [parse_struct_attributes, hattr, hv]
    cases v with
    | none => rfl
    | ident s => exact absurd rfl (hnident s)
    | lit s => rfl

/-- C4 witness: `base = Node2D` resolves the base type to `Node2D`, and
    a non-identifier `base` value fails with `InvalidBaseValue`. -/
theorem c4_base_key_witness :
    (⟨"Node2D", false⟩ : ClassAttributes).base_ty = "Node2D" ∧
    parse_struct_attributes
      ⟨"S", [⟨["godot"], [("base", KvValue.lit "42")], 6⟩],
        StructFields.unit, 0⟩ =
      .error (.invalidBaseValue 6) := by
  constructor
  · exact (c4_base_key
      ⟨"S", [⟨["godot"], [("base", KvValue.ident "Node2D")], 4⟩],
        StructFields.unit, 0⟩
      4 [("base", KvValue.ident "Node2D")] (by decide)).1
      "Node2D" (by decide) ⟨"Node2D", false⟩ (by decide)
  · exact (c4_base_key
      ⟨"S", [⟨["godot"], [("base", KvValue.lit "42")], 6⟩],
        StructFields.unit, 0⟩
      6 [("base", KvValue.lit "42")] (by decide)).2
      (KvValue.lit "42") (by decide) (fun x h => by cases h)

/-- C5: for every struct with no class-level `#[godot]` attribute, the
    resolved configuration is exactly the defaults: base type
    `RefCounted` (the documented default root base type) and no generated
    constructor. -/
theorem c5_no_attr_defaults (c : Struct)
    (h : c.attributes.filter (fun a => path_is_single a.path "godot") = []) :
    parse_struct_attributes c = .ok ⟨"RefCounted", false⟩ := by
  have hg : parse_godot_attr c.attributes = .ok Option.none :=
    isGodotAttr_filter c.attributes Option.none h
  simp only [parse_struct_attributes, hg]

/-- C5 witness: a struct with unrelated attributes only resolves to the
    default configuration. -/
theorem c5_no_attr_defaults_witness :
    parse_struct_attributes
      ⟨"S", [⟨["derive"], [], 1⟩], StructFields.unit, 0⟩ =
      .ok ⟨"RefCounted", false⟩ :=
  c5_no_attr_defaults
    ⟨"S", [⟨["derive"], [], 1⟩], StructFields.unit, 0⟩ (by decide)

/-- C6: when the struct attribute list holds two or more `#[godot]`
    attributes, the resolver — and with it the pass — fails with
    `DuplicateConfigAttribute` carrying the span of the second
    occurrence; when it holds none, the resolver returns `none` and the
    defaults apply. -/
theorem c6_duplicate_config_attr (c : Struct) :
    (∀ (a1 a2 : Attr) (arest : List Attr),
      c.attributes.filter (fun a => path_is_single a.path "godot") =
        a1 :: a2 :: arest →
      parse_godot_attr c.attributes =
        .error (.duplicateConfigAttribute a2.span) ∧
      parse_struct_attributes c =
        .error (.duplicateConfigAttribute a2.span))
    ∧ (c.attributes.filter (fun a => path_is_single a.path "godot") = [] →
      parse_godot_attr c.attributes = .ok Option.none) := by
  constructor
  · intro a1 a2 arest h
    have hp : parse_godot_attr c.attributes =
        .error (.duplicateConfigAttribute a2.span) :=
      go_godot_two c.attributes a1 a2 arest h
    refine ⟨hp, ?_⟩
    simp only [parse_struct_attributes, hp]
  · intro h
    exact isGodotAttr_filter c.attributes Option.none h

/-- C6 witness: two `#[godot]` attributes fail at the second one's span;
    an attribute-free struct resolves to `none`. -/
theorem c6_duplicate_config_attr_witness :
    parse_struct_attributes
      ⟨"S", [⟨["godot"], [], 1⟩, ⟨["godot"], [], 2⟩],
        StructFields.unit, 0⟩ =
      .error (.duplicateConfigAttribute 2) ∧
    parse_godot_attr ([] : List Attr) = .ok Option.none := by
  constructor
  · exact ((c6_duplicate_config_attr
      ⟨"S", [⟨["godot"], [], 1⟩, ⟨["godot"], [], 2⟩],
        StructFields.unit, 0⟩).1
      ⟨["godot"], [], 1⟩ ⟨["godot"], [], 2⟩ [] (by decide)).2
  · exact (c6_duplicate_config_attr
      ⟨"S", [], StructFields.unit, 0⟩).2 (by decide)

/-- C7: for every struct whose `#[godot]` body contains an `init` key
    (and whose `base` key, resolved first, is absent or valid): flag form
    sets `has_generated_init` true in any successfully resolved
    configuration, and any value on `init` fails the pass with
    `InitTakesNoValue` at the attribute span. -/
theorem c7_init_key (c : Struct) (sp : Nat) (m : KvMap)
    (hattr : parse_godot_attr c.attributes = .ok (some (sp, m)))
    (hbase : (kvRemove "base" m).1 = Option.none ∨
      ∃ x : String, (kvRemove "base" m).1 = some (KvValue.ident x)) :
    ((kvRemove "init" (kvRemove "base" m).2).1 = some KvValue.none →
      ∀ cfg : ClassAttributes, parse_struct_attributes c = .ok cfg →
        cfg.has_generated_init = true)
    ∧ (∀ v : KvValue,
        (kvRemove "init" (kvRemove "base" m).2).1 = some v →
        v ≠ KvValue.none →
        parse_struct_attributes c = .error (.initTakesNoValue sp)) := by
  rcases hbase with hb | ⟨x, hb⟩
  · have hpsa : parse_struct_attributes c =
        psaInit sp "RefCounted" (kvRemove "base" m).2 := by
      simp only [parse_struct_attributes, hattr, hb]
    constructor
    · intro hk cfg hcfg
      rw [hpsa] at hcfg
      exact psaInit_ok_flag hk hcfg
    · intro v hv hne
      rw [hpsa]
      exact psaInit_valued hv hne
  · have hpsa : parse_struct_attributes c =
        psaInit sp x (kvRemove "base" m).2 := by
      simp only [parse_struct_attributes, hattr, hb]
    constructor
    · intro hk cfg hcfg
      rw [hpsa] at hcfg
      exact psaInit_ok_flag hk hcfg
    · intro v hv hne
      rw [hpsa]
      exact psaInit_valued hv hne

/-- C7 witness: `#[godot(init)]` resolves with a generated constructor;
    `#[godot(init = foo)]` fails with `InitTakesNoValue`. -/
theorem c7_init_key_witness :
    (⟨"RefCounted", true⟩ : ClassAttributes).has_generated_init = true ∧
    parse_struct_attributes
      ⟨"S", [⟨["godot"], [("init", KvValue.ident "foo")], 8⟩],
        StructFields.unit, 0⟩ =
      .error (.initTakesNoValue 8) := by
  constructor
  · exact (c7_init_key
      ⟨"S", [⟨["godot"], [("init", KvValue.none)], 3⟩],
        StructFields.unit, 0⟩
      3 [("init", KvValue.none)] (by decide) (Or.inl (by decide))).1
      (by decide) ⟨"RefCounted", true⟩ (by decide)
  · exact (c7_init_key
      ⟨"S", [⟨["godot"], [("init", KvValue.ident "foo")], 8⟩],
        StructFields.unit, 0⟩
      8 [("init", KvValue.ident "foo")] (by decide) (Or.inl (by decide))).2
      (KvValue.ident "foo") (by decide) (by decide)

/-- C8: every successful pass appends exactly one registry entry — this
    list is the model's entire persistent-state effect — carrying the
    non-optional free-function reference derived from the class name, and
    carrying `generated_create_fn = some _` exactly when the resolved
    configuration has `has_generated_init` (a constructor is synthesized
    exactly in that case, and `generated_create_fn` is `none` otherwise). -/
theorem c8_registry_entry (c : Struct) (cfg : ClassAttributes)
    (out : ClassOutput)
    (hcfg : parse_struct_attributes c = .ok cfg)
    (hok : transform (Declaration.structDecl c) = .ok out) :
    out.registryAppends =
      [⟨c.name, cfg.base_ty,
        if cfg.has_generated_init then some (FnRef.create c.name)
        else Option.none,
        FnRef.free c.name⟩]
    ∧ (out.godot_init_impl.isSome ↔ cfg.has_generated_init = true) := by
  simp only [transform, hcfg] at hok
  cases hpf : parse_fields c with
  | error e => rw [hpf] at hok; cases hok
  | ok flds =>
    rw [hpf] at hok
    simp only at hok
    have hout := Except.ok.inj hok
    subst hout
    constructor
    · rfl
    · cases hgi : cfg.has_generated_init <;> simp [hgi]

/-- C8 witness: a struct without `init` produces one registry entry with
    `generated_create_fn = none` and no constructor. -/
theorem c8_registry_entry_witness :
    ({ metadata := ⟨"U", "RefCounted", "UserDomain", "RefCounted"⟩
       godot_init_impl := Option.none
       registryAppends :=
         [⟨"U", "RefCounted", Option.none, FnRef.free "U"⟩]
       inheritsAssertion :=
         ("inherits_transitive_RefCounted", "U") } : ClassOutput).registryAppends =
      [⟨"U", "RefCounted",
        if false then some (FnRef.create "U") else Option.none,
        FnRef.free "U"⟩] := by
  have h := c8_registry_entry
    ⟨"U", [], StructFields.named [⟨"a", "i32", []⟩], 0⟩
    ⟨"RefCounted", false⟩
    { metadata := ⟨"U", "RefCounted", "UserDomain", "RefCounted"⟩
      godot_init_impl := Option.none
      registryAppends :=
        [⟨"U", "RefCounted", Option.none, FnRef.free "U"⟩]
      inheritsAssertion := ("inherits_transitive_RefCounted", "U") }
    (by decide) (by decide)
  exact h.1

/-- C9: two struct declarations that differ only in field-level
    `#[export]` markers (they are equal after erasing such markers)
    produce identical pass output — metadata binding, constructor,
    registry entry, diagnostics — because the exported-fields collection
    gathered during field scanning never reaches the emitted result. -/
theorem c9_export_invisible (c1 c2 : Struct)
    (h : eraseExportStruct c1 = eraseExportStruct c2) :
    transform (Declaration.structDecl c1) =
      transform (Declaration.structDecl c2) := by
  rw [← transform_erase c1, ← transform_erase c2, h]

/-- C9 witness: adding an `#[export]` marker to a field leaves the
    output unchanged. -/
theorem c9_export_invisible_witness :
    transform (Declaration.structDecl
      ⟨"S", [⟨["godot"], [("init", KvValue.none)], 1⟩],
        StructFields.named [⟨"a", "i32", [⟨["export"], [], 5⟩]⟩], 0⟩) =
    transform (Declaration.structDecl
      ⟨"S", [⟨["godot"], [("init", KvValue.none)], 1⟩],
        StructFields.named [⟨"a", "i32", []⟩], 0⟩) :=
  c9_export_invisible
    ⟨"S", [⟨["godot"], [("init", KvValue.none)], 1⟩],
      StructFields.named [⟨"a", "i32", [⟨["export"], [], 5⟩]⟩], 0⟩
    ⟨"S", [⟨["godot"], [("init", KvValue.none)], 1⟩],
      StructFields.named [⟨"a", "i32", []⟩], 0⟩
    (by decide)

/-- C10: for every struct whose first `#[base]`-marked field carries two
    or more `#[base]` markers in its own attribute list (no earlier field
    carries one), the field scan fails with `MultipleBaseFields` naming
    that very field as the prior holder of the role, at the span of its
    second marker; the full pass fails the same way whenever the
    attribute resolver succeeds. -/
theorem c10_same_field_duplicate_marker (c : Struct)
    (fl1 fl2 : List NamedField) (f : NamedField)
    (a1 a2 : Attr) (arest : List Attr)
    (hf : c.fields = StructFields.named (fl1 ++ f :: fl2))
    (hpre : ∀ g ∈ fl1, g.attributes.filter isBaseAttr = [])
    (hfa : f.attributes.filter isBaseAttr = a1 :: a2 :: arest) :
    parse_fields c = .error (.multipleBaseFields f.name a2.span) ∧
    (∀ cfg, parse_struct_attributes c = .ok cfg →
      transform (Declaration.structDecl c) =
        .error (.multipleBaseFields f.name a2.span)) := by
  have hocc : baseMarkerOccs (fl1 ++ f :: fl2) =
      (f.name, a1.span) :: (f.name, a2.span) ::
        (arest.map (fun a => (f.name, a.span)) ++ baseMarkerOccs fl2) := by
    rw [baseMarkerOccs_append, baseMarkerOccs_nil_of hpre, List.nil_append,
      baseMarkerOccs, fieldBaseOccs, hfa]
    simp
  have hpf := parse_fields_two_occs hf hocc
  exact ⟨hpf, fun cfg hcfg => transform_fields_error hpf cfg hcfg⟩

/-- C10 witness: a single field with two `#[base]` markers fails naming
    itself, at its second marker. -/
theorem c10_same_field_duplicate_marker_witness :
    parse_fields
      ⟨"S", [], StructFields.named
        [⟨"x", "A", [⟨["base"], [], 10⟩, ⟨["base"], [], 11⟩]⟩], 0⟩ =
      .error (.multipleBaseFields "x" 11) :=
  (c10_same_field_duplicate_marker
    ⟨"S", [], StructFields.named
      [⟨"x", "A", [⟨["base"], [], 10⟩, ⟨["base"], [], 11⟩]⟩], 0⟩
    [] [] ⟨"x", "A", [⟨["base"], [], 10⟩, ⟨["base"], [], 11⟩]⟩
    ⟨["base"], [], 10⟩ ⟨["base"], [], 11⟩ []
    rfl (by intro g hg; cases hg) (by decide)).1

end Gdext
